/-
Verification of the bwget resumable-download engine (src/bwget.py).

The Python source is shallowly embedded below.  Python strings are
modelled as lists of characters (`PyStr`); the string helpers used by
the program (`str.lower`, `str.strip`, `str.splitlines`, `str.split`)
are modelled over ASCII, which is the character range all digests,
headers and sidecar files in the claims live in.  Stateful, I/O-bound
code (the retry loop of `_open_stream`, the per-URL loop of `main`) is
embedded as a function of the sequence of environment responses (the
outcome of each network attempt, the result of each download call), so
that the control flow of the source is reproduced exactly while the
network itself stays a parameter.  Floating-point backoff intervals are
modelled as rationals: the program only ever doubles them, which is
exact in binary floating point for the values involved.
-/
import Mathlib

namespace Bwget

/-- Python strings, modelled as lists of characters. -/
abbrev PyStr := List Char

/-- ASCII whitespace recognised by Python's `str.strip` / `str.split` /
`str.splitlines` (space, tab, newline, carriage return, vertical tab,
form feed). -/
def isPySpace (c : Char) : Bool :=
  c = ' ' || c = '\t' || c = '\n' || c = '\r' || c = '\x0b' || c = '\x0c'

/-- The ten decimal digit characters. -/
def digitChars : List Char := ['0', '1', '2', '3', '4'] ++ ['5', '6', '7', '8', '9']

/-- The six lowercase hex letters. -/
def lowerHexLetters : List Char := ['a', 'b', 'c'] ++ ['d', 'e', 'f']

/-- The six uppercase hex letters. -/
def upperHexLetters : List Char := ['A', 'B', 'C'] ++ ['D', 'E', 'F']

/-- The literal alphabet `"0123456789abcdefABCDEF"` that bwget checks
hex-digest characters against (src/bwget.py lines 249 and 848). -/
def hexAlphabet : List Char := digitChars ++ lowerHexLetters ++ upperHexLetters

/-- Lowercase hex alphabet `"0123456789abcdef"`. -/
def lowerHexAlphabet : List Char := digitChars ++ lowerHexLetters

/-- Membership test `c in "0123456789abcdefABCDEF"` from the source. -/
def isHexDigitChar (c : Char) : Bool := decide (c ∈ hexAlphabet)

/-- A character is lowercase hex. -/
def isLowerHexChar (c : Char) : Bool := decide (c ∈ lowerHexAlphabet)

/-- The 26 ASCII uppercase letters. -/
def asciiUpper : List Char :=
  upperHexLetters ++ ['G', 'H', 'I', 'J', 'K'] ++ ['L', 'M', 'N', 'O', 'P'] ++
    ['Q', 'R', 'S', 'T', 'U'] ++ ['V', 'W', 'X', 'Y', 'Z']

/-- The 26 ASCII lowercase letters. -/
def asciiLower : List Char :=
  lowerHexLetters ++ ['g', 'h', 'i', 'j', 'k'] ++ ['l', 'm', 'n', 'o', 'p'] ++
    ['q', 'r', 's', 't', 'u'] ++ ['v', 'w', 'x', 'y', 'z']

/-- Python `str.lower` on one character, restricted to ASCII. -/
def pyLowerChar (c : Char) : Char :=
  if c ∈ asciiUpper then asciiLower.getD (asciiUpper.indexOf c) c else c

/-- Python `str.lower`, restricted to ASCII. -/
def pyLower (s : PyStr) : PyStr := s.map pyLowerChar

/-- Python `str.strip` (remove leading and trailing whitespace). -/
def pyStrip (s : PyStr) : PyStr :=
  ((s.dropWhile isPySpace).reverse.dropWhile isPySpace).reverse

/-- Worker for `pySplitlines`; a line break at the very end of the
string does not open a new (empty) line, matching Python. -/
def pySplitlinesGo : PyStr → PyStr → List PyStr
  | [], acc => [acc.reverse]
  | '\r' :: '\n' :: rest, acc =>
    if rest.isEmpty then [acc.reverse] else acc.reverse :: pySplitlinesGo rest []
  | '\n' :: rest, acc =>
    if rest.isEmpty then [acc.reverse] else acc.reverse :: pySplitlinesGo rest []
  | '\r' :: rest, acc =>
    if rest.isEmpty then [acc.reverse] else acc.reverse :: pySplitlinesGo rest []
  | c :: rest, acc => pySplitlinesGo rest (c :: acc)

/-- Python `str.splitlines` (ASCII line breaks); `"".splitlines() = []`. -/
def pySplitlines (s : PyStr) : List PyStr :=
  if s.isEmpty then [] else pySplitlinesGo s []

/-- Worker for `pySplit`. -/
def pySplitGo : PyStr → PyStr → List PyStr
  | [], acc => if acc.isEmpty then [] else [acc.reverse]
  | c :: rest, acc =>
    if isPySpace c then
      if acc.isEmpty then pySplitGo rest [] else acc.reverse :: pySplitGo rest []
    else pySplitGo rest (c :: acc)

/-- Python `str.split()` with no argument: split on whitespace runs,
discarding empty fields. -/
def pySplit (s : PyStr) : List PyStr := pySplitGo s []

/-- Case-insensitive equality of hex digests (the property language of
spec section 4.5). -/
def hexEqCaseInsensitive (a b : PyStr) : Bool := pyLower a == pyLower b

/-- A 64-character lowercase hex string. -/
def IsLowerHex64 (s : PyStr) : Prop :=
  s.length = 64 ∧ s.all isLowerHexChar = true

instance (s : PyStr) : Decidable (IsLowerHex64 s) := by
  unfold IsLowerHex64; infer_instance

/-- Exit code used by `download` for a failed transfer
(src/bwget.py line 702: `sys.exit(1)`). -/
def GENERIC_FAILURE_EXIT : Nat := 1

/-- Exit code used by `verify_sha256_with_progress` on a digest
mismatch (src/bwget.py line 333: `sys.exit(2)`). -/
def CHECKSUM_MISMATCH_EXIT : Nat := 2

/-- Exit code for user cancellation (src/bwget.py line 682). -/
def INTERRUPTED_EXIT : Nat := 130

-- ---------------------------------------------------------------------
-- Retry / backoff policy: `_open_stream` (src/bwget.py lines 258-294)
-- ---------------------------------------------------------------------

/-- `TRANSIENT_STATUS = {500, 502, 503, 504}` (src/bwget.py line 107). -/
def TRANSIENT_STATUS : List Nat := [500, 502, 503, 504]

/-- The outcome of one `requests.get(...)` + `raise_for_status()`
attempt inside `_open_stream`: success, an `HTTPError` carrying the
response status, or one of the `TRANSIENT_EXCEPTIONS`
(`ConnectionError`, `Timeout`, `ChunkedEncodingError`). -/
inductive AttemptResult
  | success
  | httpError (status : Nat)
  | transientExc
  deriving DecidableEq, Repr

/-- A failure attempt is transient when it is one of the transient
exception classes or an HTTP error with status in `TRANSIENT_STATUS`. -/
def AttemptResult.isTransient : AttemptResult → Bool
  | .success => false
  | .httpError st => decide (st ∈ TRANSIENT_STATUS)
  | .transientExc => true

/-- Result of `_open_stream`: either the stream opened (after some
number of attempts, having slept the recorded backoff intervals), or
the loop re-raised an error to the caller. -/
inductive OpenResult
  | opened (attempts : Nat) (sleeps : List ℚ)
  | raised (err : AttemptResult) (attempts : Nat) (sleeps : List ℚ)
  deriving DecidableEq, Repr

/-- The retry loop of `_open_stream`, embedded over the list of
environment responses to successive attempts (`outcomes`).  Carries the
running attempt count, the current backoff and the list of sleeps
performed so far; returns `none` only if the environment list is
shorter than the number of attempts the loop makes. -/
def openStreamGo (maxR : Nat) :
    List AttemptResult → Nat → ℚ → List ℚ → Option OpenResult
  | [], _, _, _ => none
  | o :: rest, attemptPrev, backoff, sleeps =>
    match o with
    | .success => some (.opened (attemptPrev + 1) sleeps)
    | .httpError st =>
      if st ∈ TRANSIENT_STATUS ∧ attemptPrev + 1 < maxR then
        openStreamGo maxR rest (attemptPrev + 1) (backoff * 2) (sleeps ++ [backoff])
      else some (.raised (.httpError st) (attemptPrev + 1) sleeps)
    | .transientExc =>
      if maxR ≤ attemptPrev + 1 then
        some (.raised .transientExc (attemptPrev + 1) sleeps)
      else
        openStreamGo maxR rest (attemptPrev + 1) (backoff * 2) (sleeps ++ [backoff])

/-- `_open_stream` with retry budget `maxR` (`cfg["max_retries"]`) and
base backoff `base` (`cfg["base_backoff"]`). -/
def openStream (maxR : Nat) (base : ℚ) (outcomes : List AttemptResult) :
    Option OpenResult :=
  openStreamGo maxR outcomes 0 base []

-- ---------------------------------------------------------------------
-- Resume planner: `download` (src/bwget.py lines 528-579)
-- ---------------------------------------------------------------------

/-- File open mode chosen by `download`: `"wb"` (truncate) or `"ab"`
(append). -/
inductive Mode
  | wb
  | ab
  deriving DecidableEq, Repr

/-- The value stored into `http_headers["Range"]`
(src/bwget.py line 563: `f"bytes={downloaded_initial_size}-"`). -/
def rangeHeaderValue (n : Nat) : String := "bytes=" ++ toString n ++ "-"

/-- The request-shaping state `download` hands to `_open_stream`:
open mode, resume offset (`downloaded_initial_size`), and the `Range`
header if one was set. -/
structure StreamRequest where
  mode : Mode
  downloadedInitialSize : Nat
  rangeHeader : Option String
  deriving DecidableEq, Repr

/-- Outcome of the resume-planning block of `download`: either the
early `return` for an already-complete file (running the verifier first
when a digest was requested), or a streaming request. -/
inductive PlanOutcome
  | alreadyComplete (runVerifier : Bool)
  | proceed (req : StreamRequest)
  deriving DecidableEq, Repr

/-- The resume-planning block of `download` (src/bwget.py lines
528-579).  `localSize` is `final_out_path.stat().st_size`;
`originalTotalSize` is `int(head_resp.headers.get("Content-Length", 0))`
or `0` when the HEAD probe failed; `serverSupportsResume` is the
`Accept-Ranges: bytes` test. -/
def resumePlan (resume fileExists : Bool) (localSize originalTotalSize : Nat)
    (serverSupportsResume hasExpectedDigest : Bool) : PlanOutcome :=
  if resume ∧ fileExists then
    if 0 < localSize then
      if originalTotalSize ≠ 0 ∧ localSize = originalTotalSize then
        .alreadyComplete hasExpectedDigest
      else if originalTotalSize ≠ 0 ∧ originalTotalSize < localSize then
        .proceed ⟨.wb, 0, none⟩
      else if serverSupportsResume ∨ 0 < localSize then
        .proceed ⟨.ab, localSize, some (rangeHeaderValue localSize)⟩
      else
        .proceed ⟨.wb, 0, none⟩
    else
      .proceed ⟨.wb, 0, none⟩
  else
    .proceed ⟨.wb, 0, none⟩

/-- Number of `_open_stream` calls `download` makes for a given plan
outcome: the early `return` at line 556 skips the single
`_open_stream` call at line 582. -/
def streamOpenCalls : PlanOutcome → Nat
  | .alreadyComplete _ => 0
  | .proceed _ => 1

/-- Whether the verifier runs before (instead of) any transfer, per the
already-complete branch (src/bwget.py lines 554-555). -/
def verifierRunsBeforeTransfer : PlanOutcome → Bool
  | .alreadyComplete d => d
  | .proceed _ => false

-- ---------------------------------------------------------------------
-- Integrity verifier: `verify_sha256_with_progress`
-- (src/bwget.py lines 297-333)
-- ---------------------------------------------------------------------

/-- Outcome of `verify_sha256_with_progress`: a match, or a mismatch
that attempted to delete the file (recording whether the `unlink`
succeeded) and called `sys.exit` with the recorded code. -/
inductive VerifyOutcome
  | checksumOk
  | mismatchExit (fileDeleted : Bool) (exitCode : Nat)
  deriving DecidableEq, Repr

/-- `verify_sha256_with_progress` (src/bwget.py lines 297-333).
`fileDigest` stands for `sha.hexdigest()` computed by streaming the
file through hashlib's SHA-256; hashlib is an external library and its
hash is abstracted here as an input, with the documented guarantee that
`hexdigest()` output is lowercase hex.  `unlinkSucceeds` tells whether
`file_path.unlink()` raises `OSError`; a failed deletion is only
reported and does not change the exit path. -/
def verifySha256 (fileDigest expectedDigest : PyStr) (unlinkSucceeds : Bool) :
    VerifyOutcome :=
  if fileDigest = expectedDigest then .checksumOk
  else .mismatchExit unlinkSucceeds CHECKSUM_MISMATCH_EXIT

-- ---------------------------------------------------------------------
-- Stream-failure cleanup: `except RequestException` handler of
-- `download` (src/bwget.py lines 684-702)
-- ---------------------------------------------------------------------

/-- What happens to the partial file when the handler runs. -/
inductive PartialFileFate
  | deleted
  | deleteFailed
  | preserved
  deriving DecidableEq, Repr

/-- The `except RequestException` handler of `download` (src/bwget.py
lines 684-702): a fresh truncate-mode file with zero prior bytes is
unlinked (both the nonempty and the empty-file branch call `unlink`)
before `sys.exit(1)`; otherwise the file is left on disk. -/
def onStreamFailureCleanup (mode : Mode) (fileExists : Bool)
    (downloadedInitialSize : Nat) (unlinkSucceeds : Bool) :
    PartialFileFate × Nat :=
  if mode = .wb ∧ fileExists = true ∧ downloadedInitialSize = 0 then
    ((if unlinkSucceeds then .deleted else .deleteFailed), GENERIC_FAILURE_EXIT)
  else
    (.preserved, GENERIC_FAILURE_EXIT)

-- ---------------------------------------------------------------------
-- Sidecar digest discovery: `fetch_remote_sha256`
-- (src/bwget.py lines 236-255)
-- ---------------------------------------------------------------------

/-- Environment response to the `GET <url>.sha256` request: either a
`RequestException` (network failure, or `raise_for_status` on an error
status), or a successful response with the given body text. -/
inductive SidecarFetch
  | requestFailure
  | okResponse (body : PyStr)
  deriving DecidableEq, Repr

/-- A Python exception escaping a function (uncaught). -/
inductive PyErr
  | indexError
  deriving DecidableEq, Repr

/-- `fetch_remote_sha256` (src/bwget.py lines 236-255).  Only
`RequestException` is caught; the subscript
`r.text.strip().splitlines()[0]` raises an uncaught `IndexError` when
the stripped body is empty, modelled as `.error .indexError`. -/
def fetchRemoteSha256 : SidecarFetch → Except PyErr (Option PyStr)
  | .requestFailure => .ok none
  | .okResponse body =>
    match pySplitlines (pyStrip body) with
    | [] => .error .indexError
    | firstLine :: _ =>
      match pySplit firstLine with
      | [] => .error .indexError
      | token :: _ =>
        if token.length = 64 ∧ token.all isHexDigitChar = true then
          .ok (some (pyLower token))
        else .ok none

-- ---------------------------------------------------------------------
-- Per-URL batch loop of `main` (src/bwget.py lines 842-878)
-- ---------------------------------------------------------------------

/-- The explicit-digest validation of the loop body (src/bwget.py lines
843-851): `expected_sha = ns.sha256.lower()`, then skip when the result
is empty, not 64 characters long, or not all hex. -/
def invalidExplicitDigest (s : PyStr) : Bool :=
  let e := pyLower s
  e.isEmpty || e.length != 64 || !(e.all isHexDigitChar)

/-- The digest that `main` passes on to `download` for an explicitly
supplied `--sha256` argument, or `none` when the URL is skipped. -/
def mainExplicitDigest (s : PyStr) : Option PyStr :=
  if invalidExplicitDigest s then none else some (pyLower s)

/-- Environment outcome of one `download(...)` call: normal return or a
`SystemExit` with the given code. -/
inductive DownloadAttempt
  | success
  | sysExit (code : Nat)
  deriving DecidableEq, Repr

/-- Result of the whole batch loop: the loop ran to completion
(printing the `Downloaded k/n` summary and returning normally), or a
`SystemExit` was re-raised and terminated the run. -/
inductive RunResult
  | completedNormally (successCount total : Nat)
  | terminated (exitCode : Nat)
  deriving DecidableEq, Repr

/-- Whether a run result is a termination by re-raised `SystemExit`. -/
def RunResult.isTerminated : RunResult → Bool
  | .completedNormally _ _ => false
  | .terminated _ => true

/-- The `for url in urls` loop of `main` (src/bwget.py lines 842-878)
in the case where `--sha256` was supplied (so `fetch_remote_sha256` is
never called): validate the lowered digest, skipping the URL when it is
malformed; otherwise run the download, counting successes, swallowing
`SystemExit` other than code 130 and re-raising 130. -/
def runBatchExplicitGo (s : PyStr) (dl : PyStr → DownloadAttempt) :
    List PyStr → Nat → Nat → RunResult
  | [], succCount, total => .completedNormally succCount total
  | u :: rest, succCount, total =>
    if invalidExplicitDigest s then
      runBatchExplicitGo s dl rest succCount total
    else
      match dl u with
      | .success => runBatchExplicitGo s dl rest (succCount + 1) total
      | .sysExit c =>
        if c = INTERRUPTED_EXIT then .terminated INTERRUPTED_EXIT
        else runBatchExplicitGo s dl rest succCount total

/-- Batch processing with an explicit `--sha256` argument `s`. -/
def runBatchExplicit (s : PyStr) (dl : PyStr → DownloadAttempt)
    (urls : List PyStr) : RunResult :=
  runBatchExplicitGo s dl urls 0 urls.length

/-- A concrete lowercase 64-hex digest value. -/
def digestLowerA : PyStr := List.replicate 64 'a'

/-- The same digest written in uppercase. -/
def digestUpperA : PyStr := List.replicate 64 'A'

-- ---------------------------------------------------------------------
-- Helper lemmas on the character model
-- ---------------------------------------------------------------------

lemma pyLowerChar_fixed_of_lowerHex (c : Char) (h : isLowerHexChar c = true) :
    pyLowerChar c = c := by
  have hall : ∀ x ∈ lowerHexAlphabet, pyLowerChar x = x := by decide
  exact hall c (of_decide_eq_true h)

lemma isLowerHexChar_pyLowerChar_of_hex (c : Char) (h : isHexDigitChar c = true) :
    isLowerHexChar (pyLowerChar c) = true := by
  have hall : ∀ x ∈ hexAlphabet, isLowerHexChar (pyLowerChar x) = true := by decide
  exact hall c (of_decide_eq_true h)

lemma isLowerHexChar_of_hex_pyLowerChar (c : Char)
    (h : isHexDigitChar (pyLowerChar c) = true) :
    isLowerHexChar (pyLowerChar c) = true := by
  by_cases hmem : c ∈ asciiUpper
  · have hall : ∀ x ∈ asciiUpper,
        isHexDigitChar (pyLowerChar x) = true →
          isLowerHexChar (pyLowerChar x) = true := by decide
    exact hall c hmem h
  · have hc : pyLowerChar c = c := by simp [pyLowerChar, hmem]
    rw [hc] at h ⊢
    have hall : ∀ x ∈ hexAlphabet, x ∉ asciiUpper → isLowerHexChar x = true := by
      decide
    exact hall c (of_decide_eq_true h) hmem

lemma pyLower_fixed (s : PyStr) (h : s.all isLowerHexChar = true) :
    pyLower s = s := by
  have h' := List.all_eq_true.mp h
  have hmap : s.map pyLowerChar = s.map id :=
    List.map_congr_left fun c hc => pyLowerChar_fixed_of_lowerHex c (h' c hc)
  rw [pyLower, hmap, List.map_id]

-- ---------------------------------------------------------------------
-- Helper lemma for the retry loop
-- ---------------------------------------------------------------------

lemma openStreamGo_exhausts (maxR : Nat) (outcomes : List AttemptResult) :
    ∀ (a : Nat) (b : ℚ) (s : List ℚ) (last : AttemptResult),
      outcomes.length + a = maxR →
      (∀ o ∈ outcomes, o.isTransient = true) →
      outcomes.getLast? = some last →
      openStreamGo maxR outcomes a b s =
        some (.raised last maxR
          (s ++ (List.range (outcomes.length - 1)).map fun i => b * 2 ^ i)) := by
  induction outcomes with
  | nil => intro a b s last _ _ hlast; simp at hlast
  | cons o rest ih =>
    intro a b s last hlen htrans hlast
    have ho : o.isTransient = true := htrans o (List.mem_cons_self o rest)
    match rest with
    | [] =>
      have ha : a + 1 = maxR := by
        simp only [List.length_cons, List.length_nil] at hlen; omega
      have hl : o = last := by simpa using hlast
      subst hl
      cases o with
      | success => simp [AttemptResult.isTransient] at ho
      | httpError st =>
        have hst : st ∈ TRANSIENT_STATUS := by
          simpa [AttemptResult.isTransient] using ho
        simp [openStreamGo, ha, hst]
      | transientExc =>
        simp [openStreamGo, ha]
    | r :: rs =>
      have hlen' : (r :: rs).length + (a + 1) = maxR := by
        simp only [List.length_cons] at hlen ⊢; omega
      have hlt : a + 1 < maxR := by
        simp only [List.length_cons] at hlen'; omega
      have htrans' : ∀ x ∈ r :: rs, x.isTransient = true := fun x hx =>
        htrans x (List.mem_cons_of_mem o hx)
      have hlast' : (r :: rs).getLast? = some last := by
        simpa [List.getLast?_cons_cons] using hlast
      have hrec := ih (a + 1) (b * 2) (s ++ [b]) last hlen' htrans' hlast'
      have hstep : openStreamGo maxR (o :: r :: rs) a b s =
          openStreamGo maxR (r :: rs) (a + 1) (b * 2) (s ++ [b]) := by
        cases o with
        | success => simp [AttemptResult.isTransient] at ho
        | httpError st =>
          have hst : st ∈ TRANSIENT_STATUS := by
            simpa [AttemptResult.isTransient] using ho
          simp [openStreamGo, hst, hlt]
        | transientExc =>
          simp [openStreamGo, Nat.not_le.mpr hlt]
      have hm : (List.range (rs.length + 1)).map (fun i => b * 2 ^ i) =
          b :: (List.range rs.length).map (fun i => b * 2 * 2 ^ i) := by
        rw [List.range_succ_eq_map, List.map_cons, List.map_map]
        refine congrArg₂ List.cons (by simp) ?_
        refine List.map_congr_left ?_
        intro i _
        simp only [Function.comp_apply, pow_succ]
        ring
      rw [hstep, hrec]
      simp only [List.length_cons, Nat.add_sub_cancel, hm, List.append_assoc,
        List.singleton_append]

-- ---------------------------------------------------------------------
-- Claims
-- ---------------------------------------------------------------------

/-- C1: for every resume-enabled transfer where a partial file of size
N > 0 exists and the remote total size is unknown (0) or N is strictly
below it, the planning block of `download` chooses append mode with
resume offset N and sets the header `Range: bytes=N-` for the
subsequent streaming request. -/
theorem resume_range_offset (n total : Nat) (ssr hd : Bool)
    (hn : 0 < n) (h : total = 0 ∨ n < total) :
    resumePlan true true n total ssr hd =
      .proceed ⟨.ab, n, some ("bytes=" ++ toString n ++ "-")⟩ := by
  have h1 : ¬(total ≠ 0 ∧ n = total) := by rcases h with h | h <;> omega
  have h2 : ¬(total ≠ 0 ∧ total < n) := by rcases h with h | h <;> omega
  simp [resumePlan, rangeHeaderValue, hn, h1, h2]

/-- Witness for C1 at the spec's Scenario B: local size 400, remote
total 1000, range supported. -/
theorem resume_range_offset_witness :
    resumePlan true true 400 1000 true true =
      .proceed ⟨.ab, 400, some ("bytes=" ++ toString 400 ++ "-")⟩ :=
  resume_range_offset 400 1000 true true (by decide) (Or.inr (by decide))

/-- C2: given exactly `maxAttempts` consecutive transient failures,
`_open_stream` re-raises the last error after precisely `maxAttempts`
attempts and `maxAttempts - 1` backoff sleeps, the first equal to the
configured base interval and each subsequent one double the previous
(the i-th sleep is `base * 2 ^ i`). -/
theorem retry_budget (maxR : Nat) (base : ℚ) (outcomes : List AttemptResult)
    (last : AttemptResult)
    (hlen : outcomes.length = maxR) (_hmax : 1 ≤ maxR)
    (htrans : ∀ o ∈ outcomes, o.isTransient = true)
    (hlast : outcomes.getLast? = some last) :
    openStream maxR base outcomes =
      some (.raised last maxR
        ((List.range (maxR - 1)).map fun i => base * 2 ^ i)) := by
  have h := openStreamGo_exhausts maxR outcomes 0 base [] last (by omega)
    htrans hlast
  simpa [openStream, hlen] using h

/-- Witness for C2 with the default budget of 3 attempts and base
backoff 1: three transient failures, raising the last after two sleeps. -/
theorem retry_budget_witness :
    openStream 3 1 [.transientExc, .httpError 500, .transientExc] =
      some (.raised .transientExc 3
        ((List.range 2).map fun i => (1 : ℚ) * 2 ^ i)) :=
  retry_budget 3 1 [.transientExc, .httpError 500, .transientExc] .transientExc
    (by decide) (by decide) (by decide) (by decide)

/-- C3: when the probe reports a nonzero total size equal to the local
file size, the planner returns "already complete": no `_open_stream`
call is made (so a re-run issues only the metadata probe), and the
verifier runs on the existing file exactly when a digest was requested. -/
theorem already_complete_plan (n total : Nat) (ssr hd : Bool)
    (htot : total ≠ 0) (heq : n = total) :
    resumePlan true true n total ssr hd = .alreadyComplete hd ∧
    streamOpenCalls (resumePlan true true n total ssr hd) = 0 ∧
    verifierRunsBeforeTransfer (resumePlan true true n total ssr hd) = hd := by
  have hn : 0 < n := by omega
  have hplan : resumePlan true true n total ssr hd = .alreadyComplete hd := by
    simp [resumePlan, hn, htot, heq]
  exact ⟨hplan, by rw [hplan]; rfl, by rw [hplan]; rfl⟩

/-- Witness for C3 at the spec's Scenario C: local size 1000, remote
total 1000, digest requested. -/
theorem already_complete_plan_witness :
    resumePlan true true 1000 1000 true true = .alreadyComplete true ∧
    streamOpenCalls (resumePlan true true 1000 1000 true true) = 0 ∧
    verifierRunsBeforeTransfer (resumePlan true true 1000 1000 true true) = true :=
  already_complete_plan 1000 1000 true true (by decide) (by decide)

/-- C4: every streaming request the planner produces has resume offset
at most the known nonzero total size, and a local file strictly larger
than the known total is discarded: the plan restarts at offset 0 in
truncate mode with no range header. -/
theorem plan_offset_invariant (resume fileExists : Bool) (n total : Nat)
    (ssr hd : Bool) (htot : total ≠ 0) :
    (∀ req, resumePlan resume fileExists n total ssr hd = .proceed req →
        req.downloadedInitialSize ≤ total) ∧
    (total < n →
        resumePlan true true n total ssr hd = .proceed ⟨.wb, 0, none⟩) := by
  constructor
  · intro req hreq
    unfold resumePlan at hreq
    split_ifs at hreq with h1 h2 h3 h4 h5
    · cases PlanOutcome.proceed.inj hreq
      exact (by omega : (0 : Nat) ≤ total)
    · cases PlanOutcome.proceed.inj hreq
      exact (by omega : n ≤ total)
    · cases PlanOutcome.proceed.inj hreq
      exact (by omega : (0 : Nat) ≤ total)
    · cases PlanOutcome.proceed.inj hreq
      exact (by omega : (0 : Nat) ≤ total)
    · cases PlanOutcome.proceed.inj hreq
      exact (by omega : (0 : Nat) ≤ total)
  · intro hlt
    have hn : 0 < n := by omega
    have hne : n ≠ total := by omega
    have h2 : total ≠ 0 ∧ total < n := ⟨htot, hlt⟩
    simp [resumePlan, hn, hne, h2]

/-- Witness for C4: local size 1500 exceeds the remote total 1000. -/
theorem plan_offset_invariant_witness :
    (∀ req, resumePlan true true 1500 1000 true true = .proceed req →
        req.downloadedInitialSize ≤ 1000) ∧
    (1000 < 1500 →
        resumePlan true true 1500 1000 true true = .proceed ⟨.wb, 0, none⟩) :=
  plan_offset_invariant true true 1500 1000 true true (by decide)

/-- Counterexample to C5 as stated: a file whose SHA-256 hex digest is
64 times `a` checked against the expected digest 64 times `A`.  The two
are equal case-insensitively, yet `verify_sha256_with_progress`
compares with exact string equality, reports a mismatch and deletes the
file. -/
theorem verify_case_counterexample :
    hexEqCaseInsensitive digestLowerA digestUpperA = true ∧
    verifySha256 digestLowerA digestUpperA true ≠ .checksumOk ∧
    verifySha256 digestLowerA digestUpperA true =
      .mismatchExit true CHECKSUM_MISMATCH_EXIT := by
  refine ⟨by decide, by decide, by decide⟩

/-- C5 (amended): `verify` reports a match if and only if the expected
digest is exactly equal, byte for byte, to the file's lowercase hex
digest (the comparison is case-sensitive); on any mismatch the file is
deleted best-effort (a failed deletion is reported but the outcome is
the same) and the process exits with the checksum-mismatch code 2,
distinct from the generic failure code 1. -/
theorem verify_exact_match (d e : PyStr) (u : Bool) :
    (verifySha256 d e u = .checksumOk ↔ d = e) ∧
    (d ≠ e → verifySha256 d e u = .mismatchExit u CHECKSUM_MISMATCH_EXIT) ∧
    CHECKSUM_MISMATCH_EXIT ≠ GENERIC_FAILURE_EXIT := by
  unfold verifySha256
  split_ifs with h <;>
    simp [h, CHECKSUM_MISMATCH_EXIT, GENERIC_FAILURE_EXIT]

/-- Witness for C5's amended theorem at distinct digests with a failing
deletion. -/
theorem verify_exact_match_witness :
    (verifySha256 digestLowerA digestUpperA false = .checksumOk ↔
      digestLowerA = digestUpperA) ∧
    (digestLowerA ≠ digestUpperA →
      verifySha256 digestLowerA digestUpperA false =
        .mismatchExit false CHECKSUM_MISMATCH_EXIT) ∧
    CHECKSUM_MISMATCH_EXIT ≠ GENERIC_FAILURE_EXIT :=
  verify_exact_match digestLowerA digestUpperA false

/-- C6: on a stream-level `RequestException` during the write loop, a
transfer freshly started in truncate mode with zero prior bytes has its
partial file deleted (delete attempted even when it fails) before the
generic-failure exit, while an append-mode resume leaves the partial
file untouched on disk. -/
theorem stream_failure_cleanup (fileExists : Bool) (dls : Nat) (u u' : Bool) :
    onStreamFailureCleanup .wb true 0 u =
      ((if u then .deleted else .deleteFailed), GENERIC_FAILURE_EXIT) ∧
    onStreamFailureCleanup .ab fileExists dls u' =
      (.preserved, GENERIC_FAILURE_EXIT) := by
  constructor
  · simp [onStreamFailureCleanup]
  · simp [onStreamFailureCleanup]

/-- C7: an HTTP error whose status is outside `TRANSIENT_STATUS` (such
as 404 or 403) is re-raised by `_open_stream` on the first attempt,
with no retry and no backoff sleep. -/
theorem nonretryable_immediate (maxR : Nat) (base : ℚ) (st : Nat)
    (rest : List AttemptResult) (hs : st ∉ TRANSIENT_STATUS) :
    openStream maxR base (.httpError st :: rest) =
      some (.raised (.httpError st) 1 []) := by
  simp [openStream, openStreamGo, hs]

/-- Witness for C7 on status 404 with the default budget of 3. -/
theorem nonretryable_immediate_witness :
    openStream 3 1 [.httpError 404] = some (.raised (.httpError 404) 1 []) :=
  nonretryable_immediate 3 1 404 [] (by decide)

/-- C8 evaluation: when the `GET <url>.sha256` sidecar request succeeds
with an empty or all-whitespace body, `fetch_remote_sha256` raises an
uncaught `IndexError` (from `r.text.strip().splitlines()[0]`) instead
of returning None, while a failed request does return None. -/
theorem sidecar_empty_body_raises :
    fetchRemoteSha256 (.okResponse []) = .error .indexError ∧
    fetchRemoteSha256 (.okResponse [' ', '\n', '\t']) = .error .indexError ∧
    fetchRemoteSha256 .requestFailure = .ok none :=
  ⟨rfl, rfl, rfl⟩

/-- Counterexample to C9 as stated: with the malformed explicit digest
`xyz` and a two-URL batch where every download would succeed, the run
is not terminated; each URL is skipped and the loop completes normally
with 0 successes. -/
theorem invalid_digest_skip_counterexample :
    runBatchExplicit ['x', 'y', 'z'] (fun _ => .success) [['u'], ['v']] =
      .completedNormally 0 2 ∧
    (runBatchExplicit ['x', 'y', 'z'] (fun _ => .success)
      [['u'], ['v']]).isTerminated = false := by
  refine ⟨by decide, by decide⟩

/-- Helper: with an invalid explicit digest every iteration of the
batch loop takes the `continue` branch. -/
lemma runBatchExplicitGo_skip (s : PyStr) (dl : PyStr → DownloadAttempt)
    (h : invalidExplicitDigest s = true) :
    ∀ (urls : List PyStr) (succCount total : Nat),
      runBatchExplicitGo s dl urls succCount total =
        .completedNormally succCount total := by
  intro urls
  induction urls with
  | nil => intro succCount total; rfl
  | cons u rest ih =>
    intro succCount total
    rw [runBatchExplicitGo, if_pos h]
    exact ih succCount total

/-- C9 (amended): a malformed explicit digest argument (nonempty, not
64 hex characters after lowercasing) is reported per URL and converted
into a skip-to-next-URL continuation; no download is invoked for any
URL (the result does not depend on the download outcomes), and the run
completes normally with 0 successes instead of propagating a
Fatal-Input error that terminates the whole run. -/
theorem invalid_digest_skips_all (s : PyStr) (dl : PyStr → DownloadAttempt)
    (urls : List PyStr) (h : invalidExplicitDigest s = true) :
    runBatchExplicit s dl urls = .completedNormally 0 urls.length := by
  unfold runBatchExplicit
  exact runBatchExplicitGo_skip s dl h urls 0 urls.length

/-- Witness for C9's amended theorem: digest `abc`, two URLs, downloads
that would report interruption if they ever ran. -/
theorem invalid_digest_skips_all_witness :
    runBatchExplicit ['a', 'b', 'c'] (fun _ => .sysExit 130) [['u'], ['v']] =
      .completedNormally 0 2 :=
  invalid_digest_skips_all ['a', 'b', 'c'] (fun _ => .sysExit 130)
    [['u'], ['v']] (by decide)

/-- C10: every expected digest that reaches the verifier is a lowercase
64-hex string — an explicit digest is lowercased and validated at the
CLI boundary, an auto-discovered sidecar digest is lowercased before
being returned — and for lowercase digests the verifier's exact string
equality coincides with case-insensitive hex equality, realizing
case-insensitive matching at the public interface. -/
theorem digest_lowercase_invariant :
    (∀ s e, mainExplicitDigest s = some e → IsLowerHex64 e) ∧
    (∀ r d, fetchRemoteSha256 r = .ok (some d) → IsLowerHex64 d) ∧
    (∀ d e u, IsLowerHex64 d → IsLowerHex64 e →
      (verifySha256 d e u = .checksumOk ↔ hexEqCaseInsensitive d e = true)) := by
  refine ⟨?_, ?_, ?_⟩
  · intro s e he
    unfold mainExplicitDigest at he
    split_ifs at he with hinv
    have hval : invalidExplicitDigest s = false := by
      simpa using hinv
    obtain rfl : pyLower s = e := by simpa using he
    simp only [invalidExplicitDigest, Bool.or_eq_false_iff,
      List.isEmpty_eq_false, bne_eq_false_iff_eq, Bool.not_eq_false'] at hval
    refine ⟨hval.1.2, ?_⟩
    refine List.all_eq_true.mpr ?_
    intro x hx
    obtain ⟨c, _, rfl⟩ := List.mem_map.mp hx
    exact isLowerHexChar_of_hex_pyLowerChar c
      (List.all_eq_true.mp hval.2 (pyLowerChar c) hx)
  · intro r d hd
    cases r with
    | requestFailure => simp [fetchRemoteSha256] at hd
    | okResponse body =>
      simp only [fetchRemoteSha256] at hd
      split at hd
      · exact absurd hd (by simp)
      · split at hd
        · exact absurd hd (by simp)
        · rename_i x2 token restT heq2
          split_ifs at hd with hcond
          · obtain rfl : pyLower token = d := by simpa using hd
            refine ⟨by simpa [pyLower] using hcond.1, ?_⟩
            refine List.all_eq_true.mpr ?_
            intro x hx
            obtain ⟨c, hc, rfl⟩ := List.mem_map.mp hx
            exact isLowerHexChar_pyLowerChar_of_hex c
              (List.all_eq_true.mp hcond.2 c hc)
          · exact absurd hd (by simp)
  · intro d e u hd he
    have hfd : pyLower d = d := pyLower_fixed d hd.2
    have hfe : pyLower e = e := pyLower_fixed e he.2
    unfold verifySha256 hexEqCaseInsensitive
    rw [hfd, hfe]
    split_ifs with h
    · simp [h]
    · simp [h]

/-- Witness for C10: the lowercase digest of 64 `a` characters matched
against itself. -/
theorem digest_lowercase_invariant_witness :
    verifySha256 digestLowerA digestLowerA true = .checksumOk ↔
      hexEqCaseInsensitive digestLowerA digestLowerA = true :=
  digest_lowercase_invariant.2.2 digestLowerA digestLowerA true
    (by decide) (by decide)

end Bwget
